import Mathlib

/-!
Verification of the backup/restore subsystem of the Tele_juan365 Breaktime
repository (`src/database/backup.py` and `src/database/restore_on_empty.py`).

The Python code manipulates a live SQLite database file and a backup
directory.  We embed the filesystem state shallowly:

* a file name is a `List Char` (the Python code compares, slices and
  concatenates names as plain strings);
* file content is a `List Nat` (a byte string; "byte-identical" is equality);
* the backup directory is a `List FileEntry` in listing order, and the live
  database is an `Option Content` (`none` = file absent);
* external effects that the Python code consumes — the wall-clock timestamp
  used to build filenames (`datetime.now(PH_TZ)`), file modification times,
  the gzip compressor/decompressor, and the success or failure of the
  fallible steps (gzip, `os.remove`, the reverse `Connection.backup`) — are
  explicit parameters of the embedded operations, so one Lean function
  covers every run of the Python function.

SQLite's online backup API (`Connection.backup`) is modelled as an atomic
copy of the database content; its cross-process consistency guarantee is an
engine property outside this repository's source.
-/

set_option autoImplicit false

namespace Breaktime

/-- File names as character lists (Python manipulates them as strings). -/
abbrev FName := List Char

/-- File contents as byte lists; byte-identity is list equality. -/
abbrev Content := List Nat

/-- One file of the backup directory: its name, bytes, and modification
time (`os.path.getmtime`). -/
structure FileEntry where
  name : FName
  content : Content
  mtime : Nat
deriving DecidableEq, Repr

/-- The filesystem state the backup module touches: the live database file
at `DATABASE_PATH` (`none` when absent) and the backup directory. -/
structure FsState where
  liveDb : Option Content
  backupDir : List FileEntry
deriving DecidableEq, Repr

/-- Delete every entry called `n` (a real directory holds at most one). -/
def removeName (dir : List FileEntry) (n : FName) : List FileEntry :=
  dir.filter (fun e => e.name ≠ n)

/-- Write file `n` with content `c` and mtime `m`, overwriting any existing
entry of that name. -/
def fsWrite (dir : List FileEntry) (n : FName) (c : Content) (m : Nat) :
    List FileEntry :=
  removeName dir n ++ [⟨n, c, m⟩]

/-- Look a file up by name (`os.path.exists` plus reading it). -/
def lookupFile (dir : List FileEntry) (n : FName) : Option FileEntry :=
  dir.find? (fun e => e.name == n)

/-- The fixed filename stem `breaktime_backup_` of binary snapshots. -/
def snapStem : FName := "breaktime_backup_".toList

/-- `get_backup_filename`: `breaktime_backup_<ts>.db` where `<ts>` is the
formatted timestamp `%Y%m%d_%H%M%S`. -/
def dbSnapName (ts : FName) : FName := snapStem ++ ts ++ ".db".toList

/-- The compressed snapshot name: `create_backup` appends `.gz` to the
uncompressed path. -/
def gzSnapName (ts : FName) : FName := dbSnapName ts ++ ".gz".toList

/-- The filename filter of `rotate_backups`:
`f.startswith('breaktime_backup_') and (f.endswith('.db') or f.endswith('.db.gz'))`. -/
def isSnapshotName (f : FName) : Bool :=
  snapStem.isPrefixOf f &&
    (List.isSuffixOf ".db".toList f || List.isSuffixOf ".db.gz".toList f)

/-- `MAX_BACKUPS = 7`. -/
def MAX_BACKUPS : Nat := 7

/-- The environment one `create_backup` call draws from the outside world:
the formatted current Manila time `ts`, the mtime `now` the written files
get, the gzip compressor `gz`, and whether the gzip step completes without
raising (`gzipOk`). -/
structure BackupEnv where
  ts : FName
  now : Nat
  gz : Content → Content
  gzipOk : Bool

/-- Result dictionary of `create_backup`, reduced to the fields the spec
talks about: `success`, `filename`, `compressed`. -/
inductive BackupOutcome where
  | ok (filename : FName) (compressed : Bool)
  | err
deriving DecidableEq, Repr

/-- `create_backup(compress)` from `src/database/backup.py`:
if the live database is absent, fail; otherwise copy it (SQLite online
backup) to `breaktime_backup_<ts>.db`; when `compress` is requested, gzip
that file to `...db.gz` and only then delete the uncompressed intermediate.
A gzip failure raises, so the `except` clause returns failure — with the
uncompressed file still on disk (modelled: the gzip stream never comes into
existence; the exception leaves the state of the step before it). -/
def create_backup (env : BackupEnv) (compress : Bool) (s : FsState) :
    FsState × BackupOutcome :=
  match s.liveDb with
  | none => (s, .err)
  | some c =>
    let dbName := dbSnapName env.ts
    let d1 := fsWrite s.backupDir dbName c env.now
    if compress then
      if env.gzipOk then
        let d2 := fsWrite d1 (gzSnapName env.ts) (env.gz c) env.now
        let d3 := removeName d2 dbName
        (⟨some c, d3⟩, .ok (gzSnapName env.ts) true)
      else
        (⟨some c, d1⟩, .err)
    else
      (⟨some c, d1⟩, .ok dbName false)

/-- The deletion loop of `rotate_backups` over the excess files:
`os.remove` each and collect its filename; if one `os.remove` raises
(`rmOk` false for that name), the loop aborts — files already removed stay
removed, later files are not attempted, and the flag records the failure. -/
def deleteLoop (rmOk : FName → Bool) (dir : List FileEntry) :
    List FileEntry → List FileEntry × List FName × Bool
  | [] => (dir, [], true)
  | e :: rest =>
    if rmOk e.name then
      let r := deleteLoop rmOk (removeName dir e.name) rest
      (r.1, e.name :: r.2.1, r.2.2)
    else
      (dir, [], false)

/-- Insertion step of a stable descending sort on mtime: `x` goes in front
of the first entry that is not strictly newer, so among equal mtimes the
originally earlier entry stays first — as Python's stable
`sort(key=mtime, reverse=True)` does. -/
def insertDesc (x : FileEntry) : List FileEntry → List FileEntry
  | [] => [x]
  | y :: ys => if y.mtime > x.mtime then y :: insertDesc x ys else x :: y :: ys

/-- Stable sort by modification time, newest first. -/
def sortByMtimeDesc : List FileEntry → List FileEntry
  | [] => []
  | x :: xs => insertDesc x (sortByMtimeDesc xs)

/-- Result dictionary of `rotate_backups`: `total_backups`, `kept` and
`removed` on success; the bare error dictionary when an `os.remove` raised. -/
inductive RotationResult where
  | ok (total kept : Nat) (removed : List FName)
  | err
deriving DecidableEq, Repr

/-- The removed-filenames list of a rotation outcome, when it has one. -/
def RotationResult.removedNames : RotationResult → Option (List FName)
  | .ok _ _ removed => some removed
  | .err => none

/-- `rotate_backups` from `src/database/backup.py`: list the
`breaktime_backup_*.db(.gz)` files, sort them newest-first by mtime, and
delete everything past index `MAX_BACKUPS`; `rmOk` says which `os.remove`
calls succeed. -/
def rotate_backups (rmOk : FName → Bool) (s : FsState) :
    FsState × RotationResult :=
  let files := s.backupDir.filter (fun e => isSnapshotName e.name)
  let sorted := sortByMtimeDesc files
  let excess := if files.length > MAX_BACKUPS then sorted.drop MAX_BACKUPS else []
  let r := deleteLoop rmOk s.backupDir excess
  if r.2.2 then
    (⟨s.liveDb, r.1⟩, .ok files.length (min files.length MAX_BACKUPS) r.2.1)
  else
    (⟨s.liveDb, r.1⟩, .err)

/-- The environment of one `restore_backup` call: the `BackupEnv` its
pre-restore safety `create_backup(compress=True)` uses, the gzip
decompressor, and whether the Apply step (the reverse `Connection.backup`
into the live database) completes without raising. -/
structure RestoreEnv where
  benv : BackupEnv
  gunzip : Content → Content
  applyOk : Bool

/-- Result dictionary of `restore_backup`: on success the `restored_from`
filename and `pre_restore_backup` (the safety snapshot's filename when that
snapshot succeeded, else `None`); the bare error dictionary otherwise. -/
inductive RestoreResult where
  | ok (restoredFrom : FName) (preBackup : Option FName)
  | err
deriving DecidableEq, Repr

/-- `temp_path = backup_path[:-3]`: the scratch name a compressed source is
decompressed to (the source name with its final `.gz` cut off). -/
def tempNameOf (f : FName) : FName := f.take (f.length - 3)

/-- A database file freshly created by connecting to a nonexistent path
(zero pages): what the Apply step copies when its source file is missing. -/
def emptyDbContent : Content := []

/-- `restore_backup(backup_filename)` from `src/database/backup.py`:
fail with the backup-not-found error if the source artifact is absent;
otherwise take a best-effort compressed safety snapshot of the current live
database and proceed regardless of its outcome; decompress a `.gz` source
to the scratch file `temp_path` (re-reading the directory after the safety
snapshot, as `gzip.open` does — if the file vanished the open raises);
copy the materialized source over the live database with the SQLite backup
API (if the Apply step raises, the `except` clause returns at once, so the
scratch file is not cleaned up; the live database is left as it was at the
raise, modelled here as unchanged); on the success path delete the scratch
file and report. -/
def restore_backup (env : RestoreEnv) (fn : FName) (s : FsState) :
    FsState × RestoreResult :=
  match lookupFile s.backupDir fn with
  | none => (s, .err)
  | some _ =>
    let pr := create_backup env.benv true s
    let s1 := pr.1
    let preName : Option FName :=
      match pr.2 with
      | .ok f _ => some f
      | .err => none
    if List.isSuffixOf ".gz".toList fn then
      match lookupFile s1.backupDir fn with
      | none => (s1, .err)
      | some src =>
        let temp := tempNameOf fn
        let d2 := fsWrite s1.backupDir temp (env.gunzip src.content) env.benv.now
        if env.applyOk then
          let cnt :=
            match lookupFile d2 temp with
            | some e => e.content
            | none => emptyDbContent
          (⟨some cnt, removeName d2 temp⟩, .ok fn preName)
        else
          (⟨s1.liveDb, d2⟩, .err)
    else
      if env.applyOk then
        let cnt :=
          match lookupFile s1.backupDir fn with
          | some e => e.content
          | none => emptyDbContent
        (⟨some cnt, s1.backupDir⟩, .ok fn preName)
      else
        (s1, .err)

/-- `run_daily_backup`: `create_backup(compress=True)` then
`rotate_backups`, returning both results. -/
def run_daily_backup (env : BackupEnv) (rmOk : FName → Bool) (s : FsState) :
    FsState × BackupOutcome × RotationResult :=
  let b := create_backup env true s
  let r := rotate_backups rmOk b.1
  (r.1, b.2, r.2)

/-! ## `src/database/restore_on_empty.py` (Bootstrap Guard)

This module looks at the live database only through three observables:
whether the file exists, whether `SELECT COUNT(*) FROM break_logs`
succeeds, and the count it returns.  We carry the raw bytes alongside so
that "the database file is left byte-identical" is expressible. -/

/-- The live database as the bootstrap guard sees it: its raw bytes,
whether the `break_logs` count query succeeds, and the row count. -/
structure BootDb where
  bytes : Content
  queryOk : Bool
  breakLogs : Nat
deriving DecidableEq, Repr

/-- State for the bootstrap guard: the live database file (`none` when
absent) and the bundled seed export `database/backup.sql` (`none` when
absent). -/
structure BootState where
  db : Option BootDb
  seedSql : Option Content
deriving DecidableEq, Repr

/-- `check_database_empty`: `True` when the database file is missing, when
the `break_logs` count query raises (defensively), or when the count is 0. -/
def check_database_empty (s : BootState) : Bool :=
  match s.db with
  | none => true
  | some d => if d.queryOk then d.breakLogs == 0 else true

/-- `restore_from_backup(runScript)`: if the seed export is missing return
`False`; otherwise delete any existing database file and rebuild it by
executing the seed's statements — `runScript` is SQLite's `executescript`
on the seed text, yielding the resulting database. -/
def restore_from_backup (runScript : Content → BootDb) (s : BootState) :
    BootState × Bool :=
  match s.seedSql with
  | none => (s, false)
  | some sql => (⟨some (runScript sql), s.seedSql⟩, true)

/-- `run_restore_if_needed`: restore from the seed export exactly when
`check_database_empty` holds, otherwise touch nothing. -/
def run_restore_if_needed (runScript : Content → BootDb) (s : BootState) :
    BootState :=
  if check_database_empty s then (restore_from_backup runScript s).1 else s

/-! ## Basic lemmas about the filesystem primitives -/

theorem mem_removeName {d : List FileEntry} {n : FName} {e : FileEntry} :
    e ∈ removeName d n ↔ e ∈ d ∧ e.name ≠ n := by
  simp [removeName]

theorem removeName_eq_self {d : List FileEntry} {n : FName}
    (h : ∀ e ∈ d, e.name ≠ n) : removeName d n = d := by
  rw [removeName, List.filter_eq_self]
  intro e he
  simpa using h e he

theorem removeName_append {a b : List FileEntry} {n : FName} :
    removeName (a ++ b) n = removeName a n ++ removeName b n := by
  simp [removeName]

theorem mem_fsWrite_self {d : List FileEntry} {n : FName} {c : Content}
    {m : Nat} : (⟨n, c, m⟩ : FileEntry) ∈ fsWrite d n c m := by
  simp [fsWrite]

theorem mem_fsWrite_of_ne {d : List FileEntry} {n : FName} {c : Content}
    {m : Nat} {e : FileEntry} (he : e ∈ d) (hn : e.name ≠ n) :
    e ∈ fsWrite d n c m := by
  exact List.mem_append_left _ (mem_removeName.2 ⟨he, hn⟩)

theorem fsWrite_eq_append {d : List FileEntry} {n : FName} {c : Content}
    {m : Nat} (h : ∀ e ∈ d, e.name ≠ n) :
    fsWrite d n c m = d ++ [⟨n, c, m⟩] := by
  rw [fsWrite, removeName_eq_self h]

theorem lookupFile_eq_none {d : List FileEntry} {n : FName} :
    lookupFile d n = none ↔ ∀ e ∈ d, e.name ≠ n := by
  simp [lookupFile, List.find?_eq_none]

theorem lookupFile_mem {d : List FileEntry} {n : FName} {e : FileEntry}
    (h : lookupFile d n = some e) : e ∈ d ∧ e.name = n := by
  refine ⟨List.mem_of_find?_eq_some h, ?_⟩
  have := List.find?_some h
  simpa using this

theorem lookupFile_ne_none {d : List FileEntry} {n : FName}
    (h : ∃ e ∈ d, e.name = n) : lookupFile d n ≠ none := by
  intro hn
  rw [lookupFile_eq_none] at hn
  obtain ⟨e, he, hname⟩ := h
  exact hn e he hname

/-- The two names one `create_backup` call writes differ (`.gz` is
appended, so the lengths differ). -/
theorem dbSnapName_ne_gzSnapName (ts : FName) :
    dbSnapName ts ≠ gzSnapName ts := by
  intro h
  have : (dbSnapName ts).length = (gzSnapName ts).length := by rw [h]
  simp [gzSnapName, List.length_append] at this

/-! ## Lemmas about `create_backup` -/

theorem create_backup_noDb {env : BackupEnv} {cp : Bool} {s : FsState}
    (h : s.liveDb = none) : create_backup env cp s = (s, .err) := by
  unfold create_backup
  rw [h]

/-- `create_backup` never touches the live database file. -/
theorem create_backup_liveDb (env : BackupEnv) (cp : Bool) (s : FsState) :
    (create_backup env cp s).1.liveDb = s.liveDb := by
  unfold create_backup
  cases h : s.liveDb with
  | none => exact h
  | some c =>
    cases cp with
    | false => rfl
    | true => cases env.gzipOk <;> rfl

/-- The shape of a successful compressed backup on a directory that holds
neither of the two names it writes: exactly the compressed artifact is
appended. -/
theorem create_backup_compress_ok {env : BackupEnv} {s : FsState}
    {c : Content} (hc : s.liveDb = some c) (hgz : env.gzipOk = true)
    (hdb : ∀ e ∈ s.backupDir, e.name ≠ dbSnapName env.ts)
    (hgzn : ∀ e ∈ s.backupDir, e.name ≠ gzSnapName env.ts) :
    create_backup env true s =
      (⟨some c, s.backupDir ++ [⟨gzSnapName env.ts, env.gz c, env.now⟩]⟩,
        .ok (gzSnapName env.ts) true) := by
  unfold create_backup
  rw [hc]
  simp only [hgz, if_true]
  rw [fsWrite_eq_append hdb]
  have hgzn2 : ∀ e ∈ s.backupDir ++ [(⟨dbSnapName env.ts, c, env.now⟩ : FileEntry)],
      e.name ≠ gzSnapName env.ts := by
    intro e he
    rcases List.mem_append.1 he with h1 | h1
    · exact hgzn e h1
    · rcases List.mem_singleton.1 h1 with rfl
      exact dbSnapName_ne_gzSnapName env.ts
  rw [fsWrite_eq_append hgzn2]
  rw [List.append_assoc, removeName_append, removeName_eq_self hdb]
  have hne := dbSnapName_ne_gzSnapName env.ts
  simp [removeName, hne, Ne.symm hne]

/-- The shape of a compressed backup whose gzip step fails: the overall
call reports failure, but the uncompressed copy stays on disk. -/
theorem create_backup_gzip_fail {env : BackupEnv} {s : FsState}
    {c : Content} (hc : s.liveDb = some c) (hgz : env.gzipOk = false) :
    create_backup env true s =
      (⟨some c, fsWrite s.backupDir (dbSnapName env.ts) c env.now⟩, .err) := by
  unfold create_backup
  rw [hc]
  simp [hgz]

/-- Frame property of `create_backup`: a directory entry whose name is
neither of the two names the call writes is still present afterwards. -/
theorem create_backup_frame {env : BackupEnv} {cp : Bool} {s : FsState}
    {e : FileEntry} (he : e ∈ s.backupDir)
    (h1 : e.name ≠ dbSnapName env.ts) (h2 : e.name ≠ gzSnapName env.ts) :
    e ∈ (create_backup env cp s).1.backupDir := by
  unfold create_backup
  cases hdb : s.liveDb with
  | none => exact he
  | some c =>
    have he1 : e ∈ fsWrite s.backupDir (dbSnapName env.ts) c env.now :=
      mem_fsWrite_of_ne he h1
    cases cp with
    | false => exact he1
    | true =>
      cases hgz : env.gzipOk with
      | false => exact he1
      | true =>
        exact mem_removeName.2 ⟨mem_fsWrite_of_ne he1 h2, h1⟩

/-- After any `create_backup` call, a file that was present under a name
other than the uncompressed intermediate's is still present under that
name (possibly overwritten when it clashes with the compressed name). -/
theorem create_backup_keeps_name {env : BackupEnv} {s : FsState}
    {fn : FName} {src : FileEntry}
    (h : lookupFile s.backupDir fn = some src)
    (hne : fn ≠ dbSnapName env.ts) :
    ∃ e ∈ (create_backup env true s).1.backupDir, e.name = fn := by
  obtain ⟨hmem, hname⟩ := lookupFile_mem h
  by_cases hgz : fn = gzSnapName env.ts
  · cases hdb : s.liveDb with
    | none =>
      rw [create_backup_noDb hdb]
      exact ⟨src, hmem, hname⟩
    | some c =>
      cases hok : env.gzipOk with
      | false =>
        rw [create_backup_gzip_fail hdb hok]
        exact ⟨src, mem_fsWrite_of_ne hmem (hname ▸ hne), hname⟩
      | true =>
        refine ⟨⟨gzSnapName env.ts, env.gz c, env.now⟩, ?_, hgz.symm⟩
        unfold create_backup
        rw [hdb]
        simp only [hok, if_true]
        refine mem_removeName.2 ⟨mem_fsWrite_self, ?_⟩
        exact fun hcl => dbSnapName_ne_gzSnapName env.ts hcl.symm
  · exact ⟨src, create_backup_frame hmem (hname ▸ hne) (hname ▸ hgz), hname⟩

/-- The outcome of a compressed `create_backup` call: it succeeds (naming
the `.gz` artifact) exactly when the live database exists and the gzip
step completes. -/
theorem create_backup_compress_outcome (env : BackupEnv) (s : FsState) :
    (create_backup env true s).2 =
      if s.liveDb.isSome && env.gzipOk then .ok (gzSnapName env.ts) true
      else .err := by
  unfold create_backup
  cases s.liveDb with
  | none => simp
  | some c => cases hok : env.gzipOk <;> simp [hok]

/-! ## Claim theorems -/

/-- C3: `run_restore_if_needed` never modifies a live database that
already contains at least one row in `break_logs`: when the emptiness
check sees an existing database whose count query succeeds with a positive
count, the whole operation is a no-op and the state (including the raw
database bytes) is unchanged. -/
theorem bootstrap_noop_on_healthy_db (runScript : Content → BootDb)
    (s : BootState) (d : BootDb) (hdb : s.db = some d)
    (hq : d.queryOk = true) (hpos : 0 < d.breakLogs) :
    run_restore_if_needed runScript s = s := by
  unfold run_restore_if_needed check_database_empty
  rw [hdb]
  simp [hq, Nat.pos_iff_ne_zero.1 hpos]

/-- Witness for C3 at a concrete healthy database. -/
theorem bootstrap_noop_on_healthy_db_witness :
    (⟨some ⟨[1, 2], true, 3⟩, some [9]⟩ : BootState).db = some ⟨[1, 2], true, 3⟩ ∧
    (⟨[1, 2], true, 3⟩ : BootDb).queryOk = true ∧ 0 < (⟨[1, 2], true, 3⟩ : BootDb).breakLogs ∧
    run_restore_if_needed (fun _ => ⟨[0], true, 0⟩)
        ⟨some ⟨[1, 2], true, 3⟩, some [9]⟩ =
      ⟨some ⟨[1, 2], true, 3⟩, some [9]⟩ :=
  ⟨rfl, rfl, by decide,
    bootstrap_noop_on_healthy_db _ _ _ rfl rfl (by decide)⟩

/-- C4: restoring from a filename that does not exist in the backup
directory returns the backup-not-found error and mutates nothing — the
returned state is the input state itself (live database byte-identical, no
safety snapshot, no file created or deleted). -/
theorem restore_missing_is_noop (env : RestoreEnv) (fn : FName)
    (s : FsState) (h : lookupFile s.backupDir fn = none) :
    restore_backup env fn s = (s, .err) := by
  unfold restore_backup
  rw [h]

/-- Witness for C4: a concrete directory without `missing.db.gz`. -/
theorem restore_missing_is_noop_witness :
    lookupFile [(⟨"breaktime_backup_20240101_000000.db".toList, [5], 1⟩ : FileEntry)]
        "missing.db.gz".toList = none ∧
    restore_backup ⟨⟨"20240102_000000".toList, 2, fun c => c, true⟩, fun c => c, true⟩
        "missing.db.gz".toList
        ⟨some [1, 2, 3], [⟨"breaktime_backup_20240101_000000.db".toList, [5], 1⟩]⟩ =
      (⟨some [1, 2, 3], [⟨"breaktime_backup_20240101_000000.db".toList, [5], 1⟩]⟩, .err) :=
  ⟨by decide, restore_missing_is_noop _ _ _ (by decide)⟩

/-- C5 counterexample: at this concrete input the gzip step fails and
`create_backup(compress=True)` reports overall failure (`success: False`),
refuting the claim that the operation still counts as a successful backup;
the uncompressed artifact is indeed left in place. -/
theorem compression_failure_counterexample :
    (create_backup ⟨"20240101_120000".toList, 3, fun c => c, false⟩ true
        ⟨some [7], []⟩).2 = .err ∧
    (⟨dbSnapName "20240101_120000".toList, [7], 3⟩ : FileEntry) ∈
      (create_backup ⟨"20240101_120000".toList, 3, fun c => c, false⟩ true
        ⟨some [7], []⟩).1.backupDir := by
  exact ⟨rfl, by decide⟩

/-- C5 (amended): any failure during the compression step leaves the
already-written uncompressed artifact in place (it is deleted only after
compression fully succeeds), but the call then reports overall failure
(`success: False`) rather than counting as a successful backup. -/
theorem compression_failure_keeps_artifact (env : BackupEnv) (s : FsState)
    (c : Content) (hc : s.liveDb = some c) (hgz : env.gzipOk = false) :
    (create_backup env true s).2 = .err ∧
    (⟨dbSnapName env.ts, c, env.now⟩ : FileEntry) ∈
      (create_backup env true s).1.backupDir := by
  rw [create_backup_gzip_fail hc hgz]
  exact ⟨rfl, mem_fsWrite_self⟩

/-- Witness for the amended C5 at a concrete state. -/
theorem compression_failure_keeps_artifact_witness :
    (⟨some [7], []⟩ : FsState).liveDb = some [7] ∧
    (⟨"20240101_120000".toList, 3, fun c => c, false⟩ : BackupEnv).gzipOk = false ∧
    ((create_backup ⟨"20240101_120000".toList, 3, fun c => c, false⟩ true
        ⟨some [7], []⟩).2 = .err ∧
      (⟨dbSnapName "20240101_120000".toList, [7], 3⟩ : FileEntry) ∈
        (create_backup ⟨"20240101_120000".toList, 3, fun c => c, false⟩ true
          ⟨some [7], []⟩).1.backupDir) :=
  ⟨rfl, rfl, compression_failure_keeps_artifact _ _ _ rfl rfl⟩

/-- C6 counterexample: at this concrete input the source artifact is
compressed, so a scratch file is decompressed next to it; the Apply step
then fails, the exception path returns at once, and the scratch file
`breaktime_backup_20240101_000000.db` is still in the backup directory
after the call — refuting the claim that the scratch file is deleted
regardless of the Apply step's outcome. -/
theorem restore_scratch_not_cleaned_counterexample :
    (restore_backup
        ⟨⟨"20240102_000000".toList, 9, fun c => c, true⟩, fun c => c, false⟩
        "breaktime_backup_20240101_000000.db.gz".toList
        ⟨some [7], [⟨"breaktime_backup_20240101_000000.db.gz".toList, [4, 4], 1⟩]⟩).2
      = .err ∧
    tempNameOf "breaktime_backup_20240101_000000.db.gz".toList ∈
      (restore_backup
        ⟨⟨"20240102_000000".toList, 9, fun c => c, true⟩, fun c => c, false⟩
        "breaktime_backup_20240101_000000.db.gz".toList
        ⟨some [7], [⟨"breaktime_backup_20240101_000000.db.gz".toList, [4, 4], 1⟩]⟩).1.backupDir.map
        FileEntry.name := by
  exact ⟨rfl, by decide⟩

/-- C6 (amended): when the Apply step succeeds, the decompressed scratch
file is deleted before `restore_backup` returns (no entry under the
scratch name remains); when the Apply step fails, the exception handler
skips the cleanup and the scratch file is left behind (see the
counterexample). -/
theorem restore_scratch_cleanup_on_success (env : RestoreEnv) (fn : FName)
    (s : FsState) (src : FileEntry)
    (hsrc : lookupFile s.backupDir fn = some src)
    (hgz : List.isSuffixOf ".gz".toList fn = true)
    (happly : env.applyOk = true)
    (hne : fn ≠ dbSnapName env.benv.ts) :
    ∀ e ∈ (restore_backup env fn s).1.backupDir, e.name ≠ tempNameOf fn := by
  unfold restore_backup
  rw [hsrc]
  cases hl : lookupFile (create_backup env.benv true s).1.backupDir fn with
  | none =>
    exact absurd hl (lookupFile_ne_none (create_backup_keeps_name hsrc hne))
  | some src2 =>
    simp only [hgz, if_true, hl, happly]
    intro e he
    exact (mem_removeName.1 he).2

/-- Witness for the amended C6 at a concrete state. -/
theorem restore_scratch_cleanup_on_success_witness :
    lookupFile [(⟨"breaktime_backup_20240101_000000.db.gz".toList, [4, 4], 1⟩ : FileEntry)]
        "breaktime_backup_20240101_000000.db.gz".toList =
      some ⟨"breaktime_backup_20240101_000000.db.gz".toList, [4, 4], 1⟩ ∧
    List.isSuffixOf ".gz".toList "breaktime_backup_20240101_000000.db.gz".toList = true ∧
    "breaktime_backup_20240101_000000.db.gz".toList ≠ dbSnapName "20240102_000000".toList ∧
    (∀ e ∈ (restore_backup
        ⟨⟨"20240102_000000".toList, 9, fun c => c, true⟩, fun c => c, true⟩
        "breaktime_backup_20240101_000000.db.gz".toList
        ⟨some [7], [⟨"breaktime_backup_20240101_000000.db.gz".toList, [4, 4], 1⟩]⟩).1.backupDir,
      e.name ≠ tempNameOf "breaktime_backup_20240101_000000.db.gz".toList) :=
  ⟨by decide, by decide, by decide,
    restore_scratch_cleanup_on_success _ _ _
      ⟨"breaktime_backup_20240101_000000.db.gz".toList, [4, 4], 1⟩
      (by decide) (by decide) rfl (by decide)⟩

/-- C10: with an existing source artifact, the best-effort safety snapshot
runs first and the restore proceeds whether or not it succeeded; when the
Apply step succeeds, the outcome carries the restored-from filename, and it
carries the safety snapshot's filename precisely when that snapshot
succeeded (the live database existed and its compression worked), `None`
otherwise. -/
theorem restore_reports_safety_snapshot (env : RestoreEnv) (fn : FName)
    (s : FsState) (src : FileEntry)
    (hsrc : lookupFile s.backupDir fn = some src)
    (happly : env.applyOk = true)
    (hne : fn ≠ dbSnapName env.benv.ts) :
    (restore_backup env fn s).2 =
      .ok fn (if s.liveDb.isSome && env.benv.gzipOk
              then some (gzSnapName env.benv.ts) else none) := by
  have key : (restore_backup env fn s).2 =
      .ok fn (match (create_backup env.benv true s).2 with
              | .ok f _ => some f
              | .err => none) := by
    unfold restore_backup
    rw [hsrc]
    by_cases hgz : List.isSuffixOf ".gz".toList fn = true
    · cases hl : lookupFile (create_backup env.benv true s).1.backupDir fn with
      | none =>
        exact absurd hl (lookupFile_ne_none (create_backup_keeps_name hsrc hne))
      | some src2 => simp only [hgz, if_true, hl, happly]
    · simp only [hgz, Bool.false_eq_true, if_false, happly, if_true]
  rw [key, create_backup_compress_outcome env.benv s]
  cases hb : (s.liveDb.isSome && env.benv.gzipOk) <;> simp

/-- Witness for C10: a concrete restore whose safety snapshot succeeds,
and one whose safety snapshot fails (absent live database) yet the restore
still proceeds and reports `None`. -/
theorem restore_reports_safety_snapshot_witness :
    lookupFile [(⟨"breaktime_backup_20240101_000000.db.gz".toList, [4, 4], 1⟩ : FileEntry)]
        "breaktime_backup_20240101_000000.db.gz".toList =
      some ⟨"breaktime_backup_20240101_000000.db.gz".toList, [4, 4], 1⟩ ∧
    "breaktime_backup_20240101_000000.db.gz".toList ≠ dbSnapName "20240102_000000".toList ∧
    (restore_backup
        ⟨⟨"20240102_000000".toList, 9, fun c => c, true⟩, fun c => c, true⟩
        "breaktime_backup_20240101_000000.db.gz".toList
        ⟨some [7], [⟨"breaktime_backup_20240101_000000.db.gz".toList, [4, 4], 1⟩]⟩).2 =
      .ok "breaktime_backup_20240101_000000.db.gz".toList
        (some (gzSnapName "20240102_000000".toList)) ∧
    (restore_backup
        ⟨⟨"20240102_000000".toList, 9, fun c => c, false⟩, fun c => c, true⟩
        "breaktime_backup_20240101_000000.db.gz".toList
        ⟨some [7], [⟨"breaktime_backup_20240101_000000.db.gz".toList, [4, 4], 1⟩]⟩).2 =
      .ok "breaktime_backup_20240101_000000.db.gz".toList none := by
  refine ⟨by decide, by decide, ?_, ?_⟩
  · have h := restore_reports_safety_snapshot
      ⟨⟨"20240102_000000".toList, 9, fun c => c, true⟩, fun c => c, true⟩
      "breaktime_backup_20240101_000000.db.gz".toList
      ⟨some [7], [⟨"breaktime_backup_20240101_000000.db.gz".toList, [4, 4], 1⟩]⟩
      ⟨"breaktime_backup_20240101_000000.db.gz".toList, [4, 4], 1⟩
      (by decide) rfl (by decide)
    simpa using h
  · have h := restore_reports_safety_snapshot
      ⟨⟨"20240102_000000".toList, 9, fun c => c, false⟩, fun c => c, true⟩
      "breaktime_backup_20240101_000000.db.gz".toList
      ⟨some [7], [⟨"breaktime_backup_20240101_000000.db.gz".toList, [4, 4], 1⟩]⟩
      ⟨"breaktime_backup_20240101_000000.db.gz".toList, [4, 4], 1⟩
      (by decide) rfl (by decide)
    simpa using h

/-! ## Sorting lemmas for rotation -/

theorem insertDesc_perm (x : FileEntry) (l : List FileEntry) :
    (insertDesc x l).Perm (x :: l) := by
  induction l with
  | nil => exact List.Perm.refl _
  | cons y ys ih =>
    unfold insertDesc
    by_cases h : y.mtime > x.mtime
    · rw [if_pos h]
      exact (ih.cons y).trans (List.Perm.swap x y ys)
    · rw [if_neg h]

theorem sortByMtimeDesc_perm (l : List FileEntry) :
    (sortByMtimeDesc l).Perm l := by
  induction l with
  | nil => exact List.Perm.refl _
  | cons x xs ih => exact (insertDesc_perm x (sortByMtimeDesc xs)).trans (ih.cons x)

theorem length_sortByMtimeDesc (l : List FileEntry) :
    (sortByMtimeDesc l).length = l.length :=
  (sortByMtimeDesc_perm l).length_eq

/-- A concrete snapshot filename `breaktime_backup_2024010<i>_000000.db`
used by the rotation-failure scenario. -/
def c8name (i : Char) : FName :=
  "breaktime_backup_2024010".toList ++ [i] ++ "_000000.db".toList

/-- Nine binary snapshots, newest first (mtimes 9 down to 1): two files
beyond the retention limit of 7. -/
def c8dir : List FileEntry :=
  [⟨c8name '9', [9], 9⟩, ⟨c8name '8', [8], 8⟩, ⟨c8name '7', [7], 7⟩,
   ⟨c8name '6', [6], 6⟩, ⟨c8name '5', [5], 5⟩, ⟨c8name '4', [4], 4⟩,
   ⟨c8name '3', [3], 3⟩, ⟨c8name '2', [2], 2⟩, ⟨c8name '1', [1], 1⟩]

/-- C8 counterexample: nine snapshots, so two are excess; deleting the
first excess file fails, and the call returns the bare error result with
the directory unchanged — the second excess file, whose deletion would
have succeeded, was never attempted, refuting the claim that one deletion
failure does not prevent attempting the remaining excess files and is
reported as a mere partial failure. -/
theorem rotation_failure_counterexample :
    rotate_backups (fun n => n != c8name '2') ⟨some [0], c8dir⟩ =
      (⟨some [0], c8dir⟩, .err) ∧
    (fun n => n != c8name '2') (c8name '1') = true ∧
    (⟨c8name '1', [1], 1⟩ : FileEntry) ∈ c8dir := by
  exact ⟨by decide, by decide, by decide⟩

/-- C8 (amended): when deleting the first excess file fails, the rotation
loop aborts at once — nothing is removed, the remaining excess files are
not attempted, and the call reports overall failure (the bare error
dictionary), not a partial success. -/
theorem rotation_failure_aborts (rmOk : FName → Bool) (s : FsState)
    (e : FileEntry) (rest : List FileEntry)
    (hexcess : (sortByMtimeDesc
        (s.backupDir.filter (fun x => isSnapshotName x.name))).drop MAX_BACKUPS
      = e :: rest)
    (hfail : rmOk e.name = false) :
    rotate_backups rmOk s = (s, .err) := by
  have hlen : MAX_BACKUPS <
      (s.backupDir.filter (fun x => isSnapshotName x.name)).length := by
    have h1 := length_sortByMtimeDesc
      (s.backupDir.filter (fun x => isSnapshotName x.name))
    have h2 := congrArg List.length hexcess
    rw [List.length_drop] at h2
    simp only [List.length_cons] at h2
    omega
  unfold rotate_backups
  dsimp only
  rw [if_pos hlen, hexcess]
  unfold deleteLoop
  simp only [hfail, Bool.false_eq_true, if_false]

/-- Witness for the amended C8 at the concrete nine-snapshot directory. -/
theorem rotation_failure_aborts_witness :
    (sortByMtimeDesc
        (c8dir.filter (fun x => isSnapshotName x.name))).drop MAX_BACKUPS =
      (⟨c8name '2', [2], 2⟩ : FileEntry) :: [⟨c8name '1', [1], 1⟩] ∧
    (fun n => n != c8name '2') (c8name '2') = false ∧
    rotate_backups (fun n => n != c8name '2') ⟨some [0], c8dir⟩ =
      (⟨some [0], c8dir⟩, .err) :=
  ⟨by decide, by decide,
    rotation_failure_aborts _ _ ⟨c8name '2', [2], 2⟩ [⟨c8name '1', [1], 1⟩]
      (by decide) (by decide)⟩

/-! ## Rotation with no deletion failures -/

/-- When every `os.remove` succeeds, the deletion loop removes exactly the
listed files (by name), reports all their names in order, and does not
abort. -/
theorem deleteLoop_allOk (d : List FileEntry) (L : List FileEntry) :
    deleteLoop (fun _ => true) d L =
      (d.filter (fun e => decide (e.name ∉ L.map FileEntry.name)),
        L.map FileEntry.name, true) := by
  induction L generalizing d with
  | nil => simp [deleteLoop]
  | cons x rest ih =>
    have step : deleteLoop (fun _ => true) d (x :: rest) =
        ((deleteLoop (fun _ => true) (removeName d x.name) rest).1,
          x.name :: (deleteLoop (fun _ => true) (removeName d x.name) rest).2.1,
          (deleteLoop (fun _ => true) (removeName d x.name) rest).2.2) := rfl
    rw [step, ih]
    have hfst : (removeName d x.name).filter
        (fun e => decide (e.name ∉ rest.map FileEntry.name)) =
        d.filter (fun e => decide (e.name ∉ (x :: rest).map FileEntry.name)) := by
      rw [removeName, List.filter_filter]
      apply List.filter_congr
      intro a _
      by_cases h1 : a.name = x.name
      · simp [h1]
      · by_cases h2 : a.name ∈ rest.map FileEntry.name
        · simp [h1, h2]
        · simp [h1, h2]
    rw [hfst]
    rfl

/-- A rotation in which every deletion succeeds and at most `MAX_BACKUPS`
snapshots exist is a complete no-op with an empty removed list. -/
theorem rotate_allOk_of_le (s : FsState)
    (h : (s.backupDir.filter (fun e => isSnapshotName e.name)).length ≤
      MAX_BACKUPS) :
    rotate_backups (fun _ => true) s =
      (s, .ok (s.backupDir.filter (fun e => isSnapshotName e.name)).length
        (min (s.backupDir.filter (fun e => isSnapshotName e.name)).length
          MAX_BACKUPS) []) := by
  unfold rotate_backups
  dsimp only
  have hexcess : (if (s.backupDir.filter (fun e => isSnapshotName e.name)).length >
        MAX_BACKUPS
      then List.drop MAX_BACKUPS
        (sortByMtimeDesc (s.backupDir.filter (fun e => isSnapshotName e.name)))
      else []) = [] := if_neg (by omega)
  rw [hexcess]
  rfl

/-- Keeping only the entries whose names are not among those past position
`k` leaves at most `k` entries. -/
theorem length_filter_not_dropped_le (l : List FileEntry) (k : Nat) :
    (l.filter (fun e => decide (e.name ∉ (l.drop k).map FileEntry.name))).length
      ≤ k := by
  set p : FileEntry → Bool :=
    fun e => decide (e.name ∉ (l.drop k).map FileEntry.name) with hp
  have key : l.filter p = (l.take k).filter p ++ (l.drop k).filter p := by
    conv_lhs => rw [← List.take_append_drop k l]
    rw [List.filter_append]
  have hnil : (l.drop k).filter p = [] := by
    apply List.filter_eq_nil_iff.2
    intro a ha
    rw [hp]
    simp only [decide_eq_true_eq, not_not]
    exact List.mem_map_of_mem _ ha
  rw [key, hnil, List.append_nil]
  exact Nat.le_trans (List.length_filter_le _ _) (List.length_take_le _ _)

/-- After a rotation in which every deletion succeeds, at most
`MAX_BACKUPS` binary snapshots are left in the backup directory. -/
theorem rotate_allOk_count (s : FsState) :
    ((rotate_backups (fun _ => true) s).1.backupDir.filter
        (fun e => isSnapshotName e.name)).length ≤ MAX_BACKUPS := by
  by_cases h :
      (s.backupDir.filter (fun e => isSnapshotName e.name)).length ≤ MAX_BACKUPS
  · rw [rotate_allOk_of_le s h]
    exact h
  · push_neg at h
    have hrot : (rotate_backups (fun _ => true) s).1.backupDir =
        s.backupDir.filter (fun e => decide (e.name ∉
          (List.drop MAX_BACKUPS (sortByMtimeDesc
            (s.backupDir.filter (fun e => isSnapshotName e.name)))).map
            FileEntry.name)) := by
      unfold rotate_backups
      dsimp only
      have hguard :
          (if (s.backupDir.filter (fun e => isSnapshotName e.name)).length >
              MAX_BACKUPS
            then List.drop MAX_BACKUPS (sortByMtimeDesc
              (s.backupDir.filter (fun e => isSnapshotName e.name)))
            else []) =
          List.drop MAX_BACKUPS (sortByMtimeDesc
            (s.backupDir.filter (fun e => isSnapshotName e.name))) := if_pos h
      rw [hguard, deleteLoop_allOk]
      rfl
    rw [hrot]
    have hcomm : (s.backupDir.filter (fun e => decide (e.name ∉
          (List.drop MAX_BACKUPS (sortByMtimeDesc
            (s.backupDir.filter (fun e => isSnapshotName e.name)))).map
            FileEntry.name))).filter (fun e => isSnapshotName e.name) =
        (s.backupDir.filter (fun e => isSnapshotName e.name)).filter
          (fun e => decide (e.name ∉
            (List.drop MAX_BACKUPS (sortByMtimeDesc
              (s.backupDir.filter (fun e => isSnapshotName e.name)))).map
              FileEntry.name)) := by
      rw [List.filter_filter, List.filter_filter]
      apply List.filter_congr
      intro a _
      exact Bool.and_comm _ _
    rw [hcomm]
    have hperm := ((sortByMtimeDesc_perm
        (s.backupDir.filter (fun e => isSnapshotName e.name))).filter
      (fun e => decide (e.name ∉
        (List.drop MAX_BACKUPS (sortByMtimeDesc
          (s.backupDir.filter (fun e => isSnapshotName e.name)))).map
          FileEntry.name))).length_eq
    rw [← hperm]
    exact length_filter_not_dropped_le
      (sortByMtimeDesc (s.backupDir.filter (fun e => isSnapshotName e.name)))
      MAX_BACKUPS

/-- C9: rotation is idempotent — for every backup-directory state, running
`rotate_backups` twice in succession (all deletions succeeding, no new
backups in between) yields an empty removed-filenames list on the second
call. -/
theorem rotation_idempotent (s : FsState) :
    ((rotate_backups (fun _ => true)
        ((rotate_backups (fun _ => true) s).1)).2).removedNames = some [] := by
  rw [rotate_allOk_of_le _ (rotate_allOk_count s)]
  rfl

/-- A filename ending in `.gz` differs from its scratch name (the final
three characters are cut off). -/
theorem tempNameOf_ne_of_gz {fn : FName}
    (h : List.isSuffixOf ".gz".toList fn = true) : tempNameOf fn ≠ fn := by
  have hsuf : ".gz".toList <:+ fn := by simpa using h
  have hlen : 3 ≤ fn.length := by simpa using hsuf.length_le
  intro heq
  have hl := congrArg List.length heq
  rw [tempNameOf, List.length_take] at hl
  omega

/-- C7: `restore_backup` destroys no persisted artifact.  Provided the two
names the safety snapshot generates are fresh (they carry the current
timestamp), every pre-existing file other than the one at the scratch path
is still present, unchanged, after any restore call — and in particular a
compressed source artifact itself (whose name ends in `.gz` and therefore
cannot be the scratch name) is never deleted. -/
theorem restore_frame (env : RestoreEnv) (fn : FName) (s : FsState)
    (hdb : ∀ e ∈ s.backupDir, e.name ≠ dbSnapName env.benv.ts)
    (hgz : ∀ e ∈ s.backupDir, e.name ≠ gzSnapName env.benv.ts) :
    (∀ e ∈ s.backupDir, e.name ≠ tempNameOf fn →
      e ∈ (restore_backup env fn s).1.backupDir) ∧
    (List.isSuffixOf ".gz".toList fn = true →
      ∀ e ∈ s.backupDir, e.name = fn →
        e ∈ (restore_backup env fn s).1.backupDir) := by
  have main : ∀ e ∈ s.backupDir, e.name ≠ tempNameOf fn →
      e ∈ (restore_backup env fn s).1.backupDir := by
    intro e he hne
    have he1 : e ∈ (create_backup env.benv true s).1.backupDir :=
      create_backup_frame he (hdb e he) (hgz e he)
    unfold restore_backup
    dsimp only
    split
    · exact he
    · split
      · split
        · exact he1
        · split
          · exact mem_removeName.2 ⟨mem_fsWrite_of_ne he1 hne, hne⟩
          · exact mem_fsWrite_of_ne he1 hne
      · split
        · exact he1
        · exact he1
  refine ⟨main, fun hsuf e he hname => ?_⟩
  exact main e he (fun hcl => tempNameOf_ne_of_gz hsuf (hname ▸ hcl).symm)

/-- Witness for C7: a directory holding a text dump and a compressed
snapshot; after restoring from the snapshot both files are still present
(for either outcome of the safety snapshot — here it succeeds). -/
theorem restore_frame_witness :
    (∀ e ∈ [(⟨"breaktime_dump_20240101_000000.sql".toList, [1], 0⟩ : FileEntry),
        ⟨"breaktime_backup_20240101_000000.db.gz".toList, [4, 4], 1⟩],
      e.name ≠ dbSnapName "20240102_000000".toList) ∧
    (∀ e ∈ [(⟨"breaktime_dump_20240101_000000.sql".toList, [1], 0⟩ : FileEntry),
        ⟨"breaktime_backup_20240101_000000.db.gz".toList, [4, 4], 1⟩],
      e.name ≠ gzSnapName "20240102_000000".toList) ∧
    (⟨"breaktime_dump_20240101_000000.sql".toList, [1], 0⟩ : FileEntry) ∈
      (restore_backup
        ⟨⟨"20240102_000000".toList, 9, fun c => c, true⟩, fun c => c, true⟩
        "breaktime_backup_20240101_000000.db.gz".toList
        ⟨some [7], [⟨"breaktime_dump_20240101_000000.sql".toList, [1], 0⟩,
          ⟨"breaktime_backup_20240101_000000.db.gz".toList, [4, 4], 1⟩]⟩).1.backupDir ∧
    (⟨"breaktime_backup_20240101_000000.db.gz".toList, [4, 4], 1⟩ : FileEntry) ∈
      (restore_backup
        ⟨⟨"20240102_000000".toList, 9, fun c => c, true⟩, fun c => c, true⟩
        "breaktime_backup_20240101_000000.db.gz".toList
        ⟨some [7], [⟨"breaktime_dump_20240101_000000.sql".toList, [1], 0⟩,
          ⟨"breaktime_backup_20240101_000000.db.gz".toList, [4, 4], 1⟩]⟩).1.backupDir :=
  ⟨by decide, by decide,
    (restore_frame
      ⟨⟨"20240102_000000".toList, 9, fun c => c, true⟩, fun c => c, true⟩
      "breaktime_backup_20240101_000000.db.gz".toList
      ⟨some [7], [⟨"breaktime_dump_20240101_000000.sql".toList, [1], 0⟩,
        ⟨"breaktime_backup_20240101_000000.db.gz".toList, [4, 4], 1⟩]⟩
      (by decide) (by decide)).1 _ (by decide) (by decide),
    (restore_frame
      ⟨⟨"20240102_000000".toList, 9, fun c => c, true⟩, fun c => c, true⟩
      "breaktime_backup_20240101_000000.db.gz".toList
      ⟨some [7], [⟨"breaktime_dump_20240101_000000.sql".toList, [1], 0⟩,
        ⟨"breaktime_backup_20240101_000000.db.gz".toList, [4, 4], 1⟩]⟩
      (by decide) (by decide)).2 (by decide) _ (by decide) (by decide)⟩

/-! ## The P2 scenario: N snapshots followed by one rotation -/

/-- The artifact one successful `create_backup(compress=True)` call under
environment `env` leaves behind, when the live database content is `c`. -/
def snapEntry (c : Content) (env : BackupEnv) : FileEntry :=
  ⟨gzSnapName env.ts, env.gz c, env.now⟩

/-- A sequence of `create_backup(compress=True)` calls, one per
environment, in order. -/
def runSnapshots (envs : List BackupEnv) (s : FsState) : FsState :=
  envs.foldl (fun st e => (create_backup e true st).1) s

/-- All filenames the sequence of snapshot calls can touch: for each call
its uncompressed intermediate and its compressed artifact. -/
def envNames : List BackupEnv → List FName
  | [] => []
  | env :: rest => dbSnapName env.ts :: gzSnapName env.ts :: envNames rest

theorem isSnapshotName_dbSnap (ts : FName) :
    isSnapshotName (dbSnapName ts) = true := by
  simp only [isSnapshotName, Bool.and_eq_true, Bool.or_eq_true,
    List.isPrefixOf_iff_prefix, List.isSuffixOf_iff_suffix]
  constructor
  · rw [dbSnapName, List.append_assoc]
    exact List.prefix_append _ _
  · left
    rw [dbSnapName]
    exact List.suffix_append _ _

theorem isSnapshotName_gzSnap (ts : FName) :
    isSnapshotName (gzSnapName ts) = true := by
  simp only [isSnapshotName, Bool.and_eq_true, Bool.or_eq_true,
    List.isPrefixOf_iff_prefix, List.isSuffixOf_iff_suffix]
  have hsplit : gzSnapName ts = (snapStem ++ ts) ++ ".db.gz".toList := by
    rw [gzSnapName, dbSnapName, List.append_assoc, List.append_assoc]
    rfl
  constructor
  · rw [hsplit, List.append_assoc]
    exact List.prefix_append _ _
  · right
    rw [hsplit]
    exact List.suffix_append _ _

/-- Every name the snapshot sequence generates matches the rotation's
snapshot-filename filter. -/
theorem envNames_shaped (envs : List BackupEnv) :
    ∀ n ∈ envNames envs, isSnapshotName n = true := by
  induction envs with
  | nil => intro n hn; cases hn
  | cons env rest ih =>
    intro n hn
    rcases hn with _ | ⟨_, hn⟩
    · exact isSnapshotName_dbSnap env.ts
    · rcases hn with _ | ⟨_, hn⟩
      · exact isSnapshotName_gzSnap env.ts
      · exact ih n hn

/-- The names of the artifacts the sequence leaves behind, as a sublist of
all generated names. -/
theorem gzNames_sublist (envs : List BackupEnv) :
    (envs.map (fun env => gzSnapName env.ts)).Sublist (envNames envs) := by
  induction envs with
  | nil => exact List.Sublist.refl _
  | cons env rest ih =>
    exact (ih.cons₂ (gzSnapName env.ts)).cons (dbSnapName env.ts)

theorem snaps_map_name (envs : List BackupEnv) (c : Content) :
    (envs.map (snapEntry c)).map FileEntry.name =
      envs.map (fun env => gzSnapName env.ts) := by
  rw [List.map_map]
  rfl

/-- Running the snapshot sequence from a directory containing none of the
generated names, with all gzip steps succeeding and the generated names
pairwise distinct, appends exactly one compressed artifact per call, in
order, and leaves the live database untouched. -/
theorem runSnapshots_eq : ∀ (envs : List BackupEnv) (c : Content)
    (d : List FileEntry),
    (∀ env ∈ envs, env.gzipOk = true) → (envNames envs).Nodup →
    (∀ n ∈ envNames envs, ∀ e ∈ d, e.name ≠ n) →
    runSnapshots envs ⟨some c, d⟩ = ⟨some c, d ++ envs.map (snapEntry c)⟩ := by
  intro envs
  induction envs with
  | nil =>
    intro c d _ _ _
    simp [runSnapshots]
  | cons env rest ih =>
    intro c d hgz hnodup hfresh
    have hdbfresh : ∀ e ∈ d, e.name ≠ dbSnapName env.ts := fun e he =>
      hfresh _ (List.mem_cons_self _ _) e he
    have hgzfresh : ∀ e ∈ d, e.name ≠ gzSnapName env.ts := fun e he =>
      hfresh _ (List.mem_cons_of_mem _ (List.mem_cons_self _ _)) e he
    have hstep : create_backup env true ⟨some c, d⟩ =
        (⟨some c, d ++ [snapEntry c env]⟩, .ok (gzSnapName env.ts) true) :=
      create_backup_compress_ok rfl (hgz env (List.mem_cons_self _ _))
        hdbfresh hgzfresh
    have hrun : runSnapshots (env :: rest) ⟨some c, d⟩ =
        runSnapshots rest (create_backup env true ⟨some c, d⟩).1 := rfl
    rw [hrun, hstep]
    have hgzmem : gzSnapName env.ts ∉ envNames rest := by
      have h1 := (List.nodup_cons.1 hnodup).2
      exact (List.nodup_cons.1 h1).1
    have hfresh2 : ∀ n ∈ envNames rest, ∀ e ∈ d ++ [snapEntry c env],
        e.name ≠ n := by
      intro n hn e he
      rcases List.mem_append.1 he with h1 | h1
      · exact hfresh n (List.mem_cons_of_mem _ (List.mem_cons_of_mem _ hn)) e h1
      · rcases List.mem_singleton.1 h1 with rfl
        intro hname
        have hname2 : gzSnapName env.ts = n := hname
        exact hgzmem (hname2 ▸ hn)
    rw [ih c (d ++ [snapEntry c env])
      (fun x hx => hgz x (List.mem_cons_of_mem _ hx))
      ((List.nodup_cons.1 (List.nodup_cons.1 hnodup).2).2) hfresh2]
    rw [List.append_assoc]
    rfl

theorem insertDesc_eq_append (x : FileEntry) (l : List FileEntry)
    (h : ∀ y ∈ l, x.mtime < y.mtime) : insertDesc x l = l ++ [x] := by
  induction l with
  | nil => rfl
  | cons y ys ih =>
    rw [insertDesc, if_pos (h y (List.mem_cons_self _ _))]
    rw [ih (fun z hz => h z (List.mem_cons_of_mem _ hz))]
    rfl

/-- Sorting newest-first a list whose mtimes strictly increase reverses
it. -/
theorem sortByMtimeDesc_of_increasing (l : List FileEntry)
    (h : l.Pairwise (fun a b => a.mtime < b.mtime)) :
    sortByMtimeDesc l = l.reverse := by
  induction l with
  | nil => rfl
  | cons x xs ih =>
    rw [sortByMtimeDesc, ih (List.pairwise_cons.1 h).2]
    rw [insertDesc_eq_append x xs.reverse
      (fun y hy => (List.pairwise_cons.1 h).1 y (List.mem_reverse.1 hy))]
    rw [List.reverse_cons]

/-- Splitting the binary snapshots out of a directory that holds, in
order, non-snapshot files and then snapshot files. -/
theorem filter_snap_combined (d snaps : List FileEntry)
    (hd : ∀ e ∈ d, isSnapshotName e.name = false)
    (hs : ∀ e ∈ snaps, isSnapshotName e.name = true) :
    (d ++ snaps).filter (fun e => isSnapshotName e.name) = snaps := by
  rw [List.filter_append]
  rw [List.filter_eq_nil_iff.2 (fun a ha => by rw [hd a ha]; exact Bool.false_ne_true)]
  rw [List.filter_eq_self.2 hs, List.nil_append]

/-- Removing a set of names that are all snapshot-shaped from a list of
files none of whose names is snapshot-shaped removes nothing. -/
theorem filter_names_not_shaped (d : List FileEntry) (R : List FName)
    (hd : ∀ e ∈ d, isSnapshotName e.name = false)
    (hR : ∀ n ∈ R, isSnapshotName n = true) :
    d.filter (fun e => decide (e.name ∉ R)) = d := by
  apply List.filter_eq_self.2
  intro a ha
  simp only [decide_eq_true_eq]
  intro hmem
  have h1 := hR a.name hmem
  rw [hd a ha] at h1
  cases h1

/-- Removing by name a set that covers exactly the first `k` entries (and
misses all later ones) drops exactly the first `k` entries. -/
theorem filter_take_drop_split (snaps : List FileEntry) (k : Nat)
    (R : List FName)
    (hR1 : ∀ a ∈ snaps.take k, a.name ∈ R)
    (hR2 : ∀ a ∈ snaps.drop k, a.name ∉ R) :
    snaps.filter (fun e => decide (e.name ∉ R)) = snaps.drop k := by
  have key : snaps.filter (fun e => decide (e.name ∉ R)) =
      (snaps.take k).filter (fun e => decide (e.name ∉ R)) ++
      (snaps.drop k).filter (fun e => decide (e.name ∉ R)) := by
    conv_lhs => rw [← List.take_append_drop k snaps]
    rw [List.filter_append]
  rw [key]
  have h1 : (snaps.take k).filter (fun e => decide (e.name ∉ R)) = [] := by
    apply List.filter_eq_nil_iff.2
    intro a ha
    simp only [decide_eq_true_eq, not_not]
    exact hR1 a ha
  have h2 : (snaps.drop k).filter (fun e => decide (e.name ∉ R)) =
      snaps.drop k := by
    apply List.filter_eq_self.2
    intro a ha
    simp only [decide_eq_true_eq]
    exact hR2 a ha
  rw [h1, h2, List.nil_append]

/-- The shape of a rotation (all deletions succeeding) over a directory
with more than `MAX_BACKUPS` snapshots: drop by name everything past
position `MAX_BACKUPS` of the newest-first ordering and report it. -/
theorem rotate_allOk_of_gt (s : FsState)
    (h : MAX_BACKUPS <
      (s.backupDir.filter (fun e => isSnapshotName e.name)).length) :
    rotate_backups (fun _ => true) s =
      (⟨s.liveDb, s.backupDir.filter (fun e => decide (e.name ∉
          ((sortByMtimeDesc (s.backupDir.filter
            (fun e => isSnapshotName e.name))).drop MAX_BACKUPS).map
            FileEntry.name))⟩,
        .ok (s.backupDir.filter (fun e => isSnapshotName e.name)).length
          (min (s.backupDir.filter (fun e => isSnapshotName e.name)).length
            MAX_BACKUPS)
          (((sortByMtimeDesc (s.backupDir.filter
            (fun e => isSnapshotName e.name))).drop MAX_BACKUPS).map
            FileEntry.name)) := by
  unfold rotate_backups
  dsimp only
  have hguard :
      (if (s.backupDir.filter (fun e => isSnapshotName e.name)).length >
          MAX_BACKUPS
        then List.drop MAX_BACKUPS (sortByMtimeDesc
          (s.backupDir.filter (fun e => isSnapshotName e.name)))
        else []) =
      List.drop MAX_BACKUPS (sortByMtimeDesc
        (s.backupDir.filter (fun e => isSnapshotName e.name))) := if_pos h
  rw [hguard, deleteLoop_allOk]
  rfl

/-- C2: starting from a backup directory with no binary snapshots, running
N `create_backup(compress=True)` calls (fresh, chronologically increasing
timestamps; gzip succeeding) and then one rotation leaves exactly
`min(N, MAX_BACKUPS)` binary snapshots — the most recently created ones
(only the oldest `N - MAX_BACKUPS` are dropped and reported, newest-first) —
and every other file, text dumps included, is untouched. -/
theorem rotation_bound (envs : List BackupEnv) (s : FsState) (c : Content)
    (hlive : s.liveDb = some c)
    (hnosnap : ∀ e ∈ s.backupDir, isSnapshotName e.name = false)
    (hgz : ∀ env ∈ envs, env.gzipOk = true)
    (hnodup : (envNames envs).Nodup)
    (hmt : envs.Pairwise (fun a b => a.now < b.now)) :
    (rotate_backups (fun _ => true) (runSnapshots envs s)).1.backupDir =
      s.backupDir ++
        (envs.map (snapEntry c)).drop (envs.length - MAX_BACKUPS) ∧
    ((rotate_backups (fun _ => true) (runSnapshots envs s)).1.backupDir.filter
        (fun e => isSnapshotName e.name)).length =
      min envs.length MAX_BACKUPS ∧
    (rotate_backups (fun _ => true) (runSnapshots envs s)).2 =
      .ok envs.length (min envs.length MAX_BACKUPS)
        (((envs.map (snapEntry c)).take
          (envs.length - MAX_BACKUPS)).reverse.map FileEntry.name) := by
  obtain ⟨db, d⟩ := s
  dsimp only at hlive hnosnap ⊢
  subst hlive
  have hfresh : ∀ n ∈ envNames envs, ∀ e ∈ d, e.name ≠ n := by
    intro n hn e he heq
    have h1 := envNames_shaped envs n hn
    have h2 := hnosnap e he
    rw [heq, h1] at h2
    cases h2
  have hrun := runSnapshots_eq envs c d hgz hnodup hfresh
  rw [hrun]
  have hsnapshape : ∀ e ∈ envs.map (snapEntry c),
      isSnapshotName e.name = true := by
    intro e he
    obtain ⟨env, _, rfl⟩ := List.mem_map.1 he
    exact isSnapshotName_gzSnap env.ts
  have hfiles : (d ++ envs.map (snapEntry c)).filter
      (fun e => isSnapshotName e.name) = envs.map (snapEntry c) :=
    filter_snap_combined d _ hnosnap hsnapshape
  have hlen : (envs.map (snapEntry c)).length = envs.length :=
    List.length_map _ _
  by_cases hN : envs.length ≤ MAX_BACKUPS
  · have hcount : ((d ++ envs.map (snapEntry c)).filter
        (fun e => isSnapshotName e.name)).length ≤ MAX_BACKUPS := by
      rw [hfiles, hlen]
      exact hN
    rw [rotate_allOk_of_le _ hcount]
    have hzero : envs.length - MAX_BACKUPS = 0 := Nat.sub_eq_zero_of_le hN
    refine ⟨?_, ?_, ?_⟩
    · dsimp only
      rw [hzero, List.drop_zero]
    · dsimp only
      rw [hfiles, hlen]
      exact (Nat.min_eq_left hN).symm
    · dsimp only
      rw [hfiles, hlen, hzero]
      simp
  · push_neg at hN
    have hcount : MAX_BACKUPS < ((d ++ envs.map (snapEntry c)).filter
        (fun e => isSnapshotName e.name)).length := by
      rw [hfiles, hlen]
      exact hN
    rw [rotate_allOk_of_gt _ hcount]
    have hmtsnaps : (envs.map (snapEntry c)).Pairwise
        (fun a b => a.mtime < b.mtime) :=
      List.Pairwise.map _ (fun a b h => h) hmt
    have hsorted : sortByMtimeDesc (envs.map (snapEntry c)) =
        (envs.map (snapEntry c)).reverse :=
      sortByMtimeDesc_of_increasing _ hmtsnaps
    have hnamesnodup : ((envs.map (snapEntry c)).map FileEntry.name).Nodup := by
      rw [snaps_map_name]
      exact (gzNames_sublist envs).nodup hnodup
    have hrevdrop : ((envs.map (snapEntry c)).take
        (envs.length - MAX_BACKUPS)).reverse =
        ((envs.map (snapEntry c)).reverse).drop MAX_BACKUPS := by
      rw [List.reverse_take, hlen]
      congr 1
      omega
    dsimp only
    rw [hfiles, hsorted, ← hrevdrop]
    have hRshape : ∀ n ∈ (((envs.map (snapEntry c)).take
        (envs.length - MAX_BACKUPS)).reverse).map FileEntry.name,
        isSnapshotName n = true := by
      intro n hn
      obtain ⟨b, hb, rfl⟩ := List.mem_map.1 hn
      exact hsnapshape b (List.mem_of_mem_take (List.mem_reverse.1 hb))
    have hR1 : ∀ a ∈ (envs.map (snapEntry c)).take
        (envs.length - MAX_BACKUPS),
        a.name ∈ (((envs.map (snapEntry c)).take
          (envs.length - MAX_BACKUPS)).reverse).map FileEntry.name :=
      fun a ha => List.mem_map_of_mem _ (List.mem_reverse.2 ha)
    have hR2 : ∀ a ∈ (envs.map (snapEntry c)).drop
        (envs.length - MAX_BACKUPS),
        a.name ∉ (((envs.map (snapEntry c)).take
          (envs.length - MAX_BACKUPS)).reverse).map FileEntry.name := by
      intro a ha hmem
      obtain ⟨b, hb, hname⟩ := List.mem_map.1 hmem
      have hb2 : b ∈ (envs.map (snapEntry c)).take
        (envs.length - MAX_BACKUPS) := List.mem_reverse.1 hb
      have hnd := hnamesnodup
      rw [← List.take_append_drop (envs.length - MAX_BACKUPS)
        (envs.map (snapEntry c)), List.map_append] at hnd
      obtain ⟨-, -, hdisj⟩ := List.nodup_append.1 hnd
      have hbn : b.name ∈ ((envs.map (snapEntry c)).take
        (envs.length - MAX_BACKUPS)).map FileEntry.name :=
        List.mem_map_of_mem _ hb2
      have han : a.name ∈ ((envs.map (snapEntry c)).drop
        (envs.length - MAX_BACKUPS)).map FileEntry.name :=
        List.mem_map_of_mem _ ha
      rw [hname] at hbn
      exact hdisj hbn han
    have hdir : (d ++ envs.map (snapEntry c)).filter
        (fun e => decide (e.name ∉ (((envs.map (snapEntry c)).take
          (envs.length - MAX_BACKUPS)).reverse).map FileEntry.name)) =
        d ++ (envs.map (snapEntry c)).drop (envs.length - MAX_BACKUPS) := by
      rw [List.filter_append]
      rw [filter_names_not_shaped d _ hnosnap hRshape]
      rw [filter_take_drop_split _ _ _ hR1 hR2]
    rw [hdir]
    refine ⟨rfl, ?_, ?_⟩
    · have hdropshape : ∀ e ∈ (envs.map (snapEntry c)).drop
          (envs.length - MAX_BACKUPS), isSnapshotName e.name = true :=
        fun e he => hsnapshape e (List.mem_of_mem_drop he)
      rw [filter_snap_combined d _ hnosnap hdropshape]
      rw [List.length_drop, hlen]
      omega
    · rw [hlen]

/-- A concrete snapshot environment: timestamp `2024010<i>_000000`,
mtime `n`, identity compressor, gzip succeeding. -/
def c2env (i : Char) (n : Nat) : BackupEnv :=
  ⟨"2024010".toList ++ [i] ++ "_000000".toList, n, fun c => c, true⟩

/-- Eight concrete snapshot environments with increasing timestamps. -/
def c2envs : List BackupEnv :=
  [c2env '1' 1, c2env '2' 2, c2env '3' 3, c2env '4' 4,
   c2env '5' 5, c2env '6' 6, c2env '7' 7, c2env '8' 8]

/-- A backup directory holding only a text dump. -/
def c2dir : List FileEntry :=
  [⟨"breaktime_dump_20240101_000000.sql".toList, [3], 0⟩]

/-- Witness for C2: eight snapshots into a directory holding one `.sql`
dump, then one rotation — the dump survives and only the seven newest
snapshots remain. -/
theorem rotation_bound_witness :
    (⟨some [7], c2dir⟩ : FsState).liveDb = some [7] ∧
    (∀ e ∈ c2dir, isSnapshotName e.name = false) ∧
    (∀ env ∈ c2envs, env.gzipOk = true) ∧
    (envNames c2envs).Nodup ∧
    c2envs.Pairwise (fun a b => a.now < b.now) ∧
    (rotate_backups (fun _ => true)
        (runSnapshots c2envs ⟨some [7], c2dir⟩)).1.backupDir =
      c2dir ++ (c2envs.map (snapEntry [7])).drop
        (c2envs.length - MAX_BACKUPS) :=
  ⟨rfl, by decide, by decide, by decide, by decide,
    (rotation_bound c2envs ⟨some [7], c2dir⟩ [7] rfl (by decide) (by decide)
      (by decide) (by decide)).1⟩

end Breaktime
